import Mathlib

/-!
Verification of the RAG core of the longevity platform
(`src/rag/src/geminiRAGService.js`, which bundles `RAGLongevityService`
and `GeminiRAGService`, and `src/rag/index.js`).

The JavaScript source is shallowly embedded over exact rationals:
JS number literals 0.4 / 0.3 / 0.2 / 0.15 / 0.1 / 0.5 are written
2/5, 3/10, 1/5, 3/20, 1/10, 1/2.  JS `undefined` / missing object
fields are `Option.none`; JS truthiness (`x || default`, `if (!x)`)
is modelled field by field, including the quirk that the number 0 and
the empty string are falsy.  A JS computation that produces `NaN`
(0/0) is modelled as `Option.none`.
-/

namespace RAG

/-- Substring test over character lists: `startsWithList hay pat` is
true when `pat` is a prefix of `hay`.  Used to embed the JS string
method `includes`. -/
def startsWithList : List Char → List Char → Bool
  | _, [] => true
  | [], _ :: _ => false
  | a :: as, b :: bs => a = b && startsWithList as bs

/-- `occursIn pat hay` is true when `pat` occurs as a contiguous
substring of `hay`; embeds JS `hay.includes(pat)`. -/
def occursIn (pat : List Char) : List Char → Bool
  | [] => startsWithList [] pat
  | c :: rest => startsWithList (c :: rest) pat || occursIn pat rest

/-- Metadata record attached to a knowledge item.  Every field the
ranking and confidence code reads is optional, mirroring the
loosely-typed JS metadata objects (absent field = `none`). -/
structure Metadata where
  clinical_relevance : Option ℚ
  year : Option ℤ
  type : Option String
  author : Option String
  language : Option String
deriving DecidableEq

/-- Metadata record with every field absent. -/
def emptyMeta : Metadata := ⟨none, none, none, none, none⟩

/-- Embeds `metadata.clinical_relevance || 0.5` from
`calculateRelevance`: the JS `||` falls back to 0.5 both when the
field is absent and when it is the (falsy) number 0. -/
def clinicalOrDefault (metadata : Metadata) : ℚ :=
  match metadata.clinical_relevance with
  | none => 1/2
  | some c => if c = 0 then 1/2 else c

/-- Embeds `getRecencyBonus(year)`.  The JS `new Date().getFullYear()`
is passed explicitly as `currentYear`.  JS `if (!year) return 0`
catches both an absent year and the falsy year 0. -/
def getRecencyBonus (currentYear : ℤ) (year : Option ℤ) : ℚ :=
  match year with
  | none => 0
  | some y =>
    if y = 0 then 0
    else
      let yearsOld := currentYear - y
      if yearsOld ≤ 1 then 1/5
      else if yearsOld ≤ 2 then 3/20
      else if yearsOld ≤ 3 then 1/10
      else 0

/-- Embeds `author?.includes(`Chang-Myung Oh`)`: `none` (JS optional
chaining on `undefined`) is falsy. -/
def authorIncludesOh (author : Option String) : Bool :=
  match author with
  | none => false
  | some a => occursIn ("Chang-Myung Oh".data) a.data

/-- JS truthiness of the `author` field inside
`type === research_paper && author`: absent and the empty string are
falsy. -/
def authorTruthy (author : Option String) : Bool :=
  match author with
  | none => false
  | some a => !(a = "")

/-- Embeds `getAuthorityBonus(type, author)` of
`RAGLongevityService`. -/
def getAuthorityBonus (type : Option String) (author : Option String) : ℚ :=
  if type = some "professor_expertise" ∨ authorIncludesOh author = true then 3/10
  else if type = some "research_paper" ∧ authorTruthy author = true then 3/20
  else if type = some "clinical_trial" then 1/5
  else 0

/-- Embeds `calculateRelevance(score, metadata)`:
`0.4*similarity + 0.3*clinicalRelevance + 0.2*recencyBonus +
0.1*authorityBonus`, with no clamping. -/
def calculateRelevance (currentYear : ℤ) (score : ℚ) (metadata : Metadata) : ℚ :=
  let similarityScore := score
  let clinicalRelevance := clinicalOrDefault metadata
  let recencyBonus := getRecencyBonus currentYear metadata.year
  let authorityBonus := getAuthorityBonus metadata.type metadata.author
  similarityScore * (2/5) + clinicalRelevance * (3/10)
    + recencyBonus * (1/5) + authorityBonus * (1/10)

/-- Hangul syllable range (U+AC00 to U+D7A3) of the
language-detection regex. -/
def isKoreanChar (c : Char) : Bool :=
  0xAC00 ≤ c.toNat && c.toNat ≤ 0xD7A3

/-- Character class of the JS regex `\s` (principal members). -/
def isJsWhitespace (c : Char) : Bool :=
  c = ' ' || c = '\t' || c = '\n' || c = '\r'
    || c.toNat = 11 || c.toNat = 12 || c.toNat = 0xA0

/-- Embeds `detectLanguage(text)` of `GeminiRAGService`: counts Hangul
characters, divides by the number of non-whitespace characters, and
reports Korean above the 0.3 ratio.  A null regex match (no Hangul at
all) short-circuits to English, so the division never sees 0/0. -/
def detectLanguage (text : String) : String :=
  let koreanChars := text.data.filter isKoreanChar
  let totalChars := (text.data.filter (fun c => !isJsWhitespace c)).length
  if koreanChars.length ≠ 0 ∧ ((koreanChars.length : ℚ) / (totalChars : ℚ) > 3/10)
  then "korean" else "english"

/-- Embeds `metadata.language || english` (the empty string is
falsy). -/
def languageOrEnglish (language : Option String) : String :=
  match language with
  | none => "english"
  | some l => if l = "" then "english" else l

/-- Embeds `calculateMultilingualRelevance(score, metadata, query)` of
`GeminiRAGService`: the base relevance plus a same-language bonus and
a Korean-Korean bonus, capped above by `Math.min(1, ...)` (no lower
cap). -/
def calculateMultilingualRelevance (currentYear : ℤ) (score : ℚ)
    (metadata : Metadata) (query : String) : ℚ :=
  let baseRelevance := calculateRelevance currentYear score metadata
  let queryLanguage := detectLanguage query
  let contentLanguage := languageOrEnglish metadata.language
  let languageBonus := if queryLanguage = contentLanguage then (1/5 : ℚ) else 0
  let koreanBonus :=
    if queryLanguage = "korean" ∧ contentLanguage = "korean" then (1/10 : ℚ) else 0
  min 1 (baseRelevance + languageBonus + koreanBonus)

/-- Retrieval result as consumed by the confidence code: its computed
relevance and its metadata. -/
structure Source where
  relevance : ℚ
  metadata : Metadata

/-- Authority filter of `calculateResponseConfidence`:
`s.metadata.type === professor_expertise ||
s.metadata.author?.includes(`Chang-Myung Oh`)`. -/
def isAuthoritySource (s : Source) : Bool :=
  s.metadata.type == some "professor_expertise" || authorIncludesOh s.metadata.author

/-- Embeds `s.metadata.author?.includes(`장수영 오`)` of
`calculateGeminiConfidence`. -/
def authorIncludesKoreanOh (author : Option String) : Bool :=
  match author with
  | none => false
  | some a => occursIn ("장수영 오".data) a.data

/-- Authority filter of `calculateGeminiConfidence`: professor
expertise, Korean Professor Oh author, or Korean-language metadata. -/
def isGeminiAuthoritySource (s : Source) : Bool :=
  s.metadata.type == some "professor_expertise"
    || authorIncludesKoreanOh s.metadata.author
    || s.metadata.language == some "korean"

/-- Embeds `calculateResponseConfidence(sources)`:
`clamp(0.4*avgRelevance + 0.3*sourceCount + 0.3*authorityScore)` with
`avgRelevance = (sum of relevances)/length`.  On the empty list the JS
`reduce(...)/sources.length` is `0/0 = NaN`, and
`Math.min(1, Math.max(0, NaN))` is still `NaN`; that undefined score
is modelled as `none`. -/
def calculateResponseConfidence (sources : List Source) : Option ℚ :=
  if sources.length = 0 then none
  else
    let avgRelevance := (sources.map Source.relevance).sum / (sources.length : ℚ)
    let sourceCount := (sources.length : ℚ)
    let authorityScore := ((sources.filter isAuthoritySource).length : ℚ)
    some (min 1 (max 0
      (avgRelevance * (2/5) + sourceCount * (3/10) + authorityScore * (3/10))))

/-- Embeds `calculateGeminiConfidence(sources)`: identical arithmetic
to `calculateResponseConfidence` with the wider authority filter. -/
def calculateGeminiConfidence (sources : List Source) : Option ℚ :=
  if sources.length = 0 then none
  else
    let avgRelevance := (sources.map Source.relevance).sum / (sources.length : ℚ)
    let sourceCount := (sources.length : ℚ)
    let authorityScore := ((sources.filter isGeminiAuthoritySource).length : ℚ)
    some (min 1 (max 0
      (avgRelevance * (2/5) + sourceCount * (3/10) + authorityScore * (3/10))))

/-- Confidence formula exactly as claim C2 words it (spec side, for
comparison with the code): the source and authority counts are
normalised by a target count and capped at 1 before being weighted. -/
def specConfidenceFormula (sources : List Source) (targetCount : ℚ) : ℚ :=
  let avgRelevance := (sources.map Source.relevance).sum / (sources.length : ℚ)
  let sourceCount := (sources.length : ℚ)
  let authorityCount := ((sources.filter isAuthoritySource).length : ℚ)
  min 1 (max 0 (avgRelevance * (2/5) + min 1 (sourceCount / targetCount) * (3/10)
    + min 1 (authorityCount / targetCount) * (3/10)))

/-- Amended claim C2 formula: the code weights the raw source count
and raw authority count, with no target-count normalisation. -/
def rawCountConfidenceFormula (sources : List Source)
    (authorityFilter : Source → Bool) : ℚ :=
  min 1 (max 0 ((sources.map Source.relevance).sum / (sources.length : ℚ) * (2/5)
    + (sources.length : ℚ) * (3/10)
    + ((sources.filter authorityFilter).length : ℚ) * (3/10)))

/-- Decimal value of a digit run, as JS `parseInt` computes it on a
digit-only string (leading zeros allowed). -/
def digitsVal (ds : List Char) : ℕ :=
  ds.foldl (fun acc c => 10 * acc + (c.toNat - 48)) 0

/-- One matching step of the citation regex at the head of `l`: a
match of the pattern (literal bracket-Source-space, then one or more
digits, then a closing bracket) starting at this position returns its
greedy digit run, otherwise `none`.  The literal prefix is 8
characters long, hence `drop 8`. -/
def markerAt (l : List Char) : Option (List Char) :=
  if startsWithList l ("[Source ".data) then
    if (l.drop 8).takeWhile Char.isDigit ≠ []
        ∧ ((l.drop 8).dropWhile Char.isDigit).head? = some ']'
    then some ((l.drop 8).takeWhile Char.isDigit) else none
  else none

/-- Global scan of `extractCitations`: the digit runs of every
citation marker in the text, left to right.  The JS regex with the
`g` flag resumes after each match end; since the only opening bracket
of a marker is its first character, no match can start strictly
inside another, so advancing one character at a time finds exactly
the same matches. -/
def scanMarkers : List Char → List (List Char)
  | [] => []
  | c :: rest =>
    match markerAt (c :: rest) with
    | some ds => ds :: scanMarkers rest
    | none => scanMarkers rest

/-- Citation object produced by `extractCitations`: the matched
marker text and `parseInt` of its first digit run. -/
structure Citation where
  text : String
  sourceNumber : ℕ
deriving DecidableEq

/-- Embeds `extractCitations(text)`: every marker matched by the
citation regex, mapped to its citation object.  No range check
against any source count is performed. -/
def extractCitations (text : String) : List Citation :=
  (scanMarkers text.data).map (fun ds =>
    ⟨"[Source " ++ String.mk ds ++ "]", digitsVal ds⟩)

/-- Result object of `formatRAGResponse`. -/
structure FormattedResponse where
  text : String
  citations : List Citation
  sourceCount : ℕ

/-- Embeds `formatRAGResponse(response, sources)`: the raw response
text, all extracted citations, and the source count.  Total: it never
fails, and it never filters the citations. -/
def formatRAGResponse (response : String) (sources : List Source) : FormattedResponse :=
  ⟨response, extractCitations response, sources.length⟩

/-- Value of the `query` field of a request body, as far as the
handler logic distinguishes values. -/
inductive JSValue where
  | str (s : String)
  | num (q : ℚ)
  | boolean (b : Bool)
  | nullv
  | undef
  | obj
deriving DecidableEq

/-- JS truthiness of a `JSValue`. -/
def truthy : JSValue → Bool
  | .str s => !(s = "")
  | .num q => !(q = 0)
  | .boolean b => b
  | .nullv => false
  | .undef => false
  | .obj => true

/-- Outcome of the guard section of `handleLongevityQuery` in
`src/rag/index.js`. -/
inductive HandlerOutcome where
  | badRequestQueryRequired
  | serviceUnavailable
  | pipelineInvoked (query : JSValue)
deriving DecidableEq

/-- Embeds the guards of `handleLongevityQuery`: `if (!query)` returns
the 400 Query-is-required response; `if (!this.isInitialized)`
returns 503; otherwise `generateRAGResponse(query, ...)` is invoked
with the query value as is.  No type check is performed anywhere. -/
def handleLongevityQuery (isInitialized : Bool) (query : JSValue) : HandlerOutcome :=
  if truthy query = false then .badRequestQueryRequired
  else if isInitialized = false then .serviceUnavailable
  else .pipelineInvoked query

/-- Errors the embedded pipeline fragment can raise.  The repository
defines no ValidationError class at all. -/
inductive PipelineError where
  | typeError
deriving DecidableEq

/-- Embeds the cache key of `createEmbedding`:
`emb_ + text.substring(0, 100)`. -/
def cacheKey (text : String) : String := "emb_" ++ text.take 100

/-- First computation `generateRAGResponse` applies to the query
text: `searchLongevity` calls `createEmbedding(query)`, which
evaluates `text.substring(0, 100)`.  On a non-string query the
`substring` member does not exist and a `TypeError` is thrown —
before any external call, but not a validation error. -/
def embeddingCacheKeyOf : JSValue → Except PipelineError String
  | .str s => .ok (cacheKey s)
  | _ => .error .typeError

/-- Embeds `createEmbedding(text)`: return the cached vector when the
(truncated-text) key is present, otherwise call the provider and
cache the result under the key.  The external embedding provider is
abstracted as `provider`; the `Map` cache is an association list with
most-recent-first lookup. -/
def createEmbedding {V : Type} (provider : String → V)
    (cache : List (String × V)) (text : String) : V × List (String × V) :=
  match cache.lookup (cacheKey text) with
  | some v => (v, cache)
  | none =>
    let v := provider text
    (v, (cacheKey text, v) :: cache)

/-- Word-grouping loop of `chunkDocument`: the JS loop pushes
`words.slice(i, i + chunkSize)` for `i = 0, chunkSize, 2*chunkSize,
...`.  Written with the head word split off (`take (n-1)` /
`drop (n-1)`) so that the recursion decreases; for `chunkSize ≥ 1`
this equals the JS loop (for `chunkSize = 0` the JS loop never
terminates, and the claims only concern positive window sizes). -/
def chunkWords : List String → ℕ → List (List String)
  | [], _ => []
  | w :: ws, n => (w :: ws.take (n - 1)) :: chunkWords (ws.drop (n - 1)) n
termination_by l _ => l.length
decreasing_by
  simp only [List.length_drop, List.length_cons]
  omega

/-- Embeds `chunkDocument(text, chunkSize)`: split on the single
space character (JS `text.split` with a one-space separator, exactly
as `String.splitOn` behaves, empty pieces included), group into
word windows, and join each window back with single spaces. -/
def chunkDocument (text : String) (chunkSize : ℕ) : List String :=
  (chunkWords (text.splitOn " ") chunkSize).map (fun ws => " ".intercalate ws)

/-- Descending-relevance comparison of the ranking sort
`sort((a, b) => b.relevance - a.relevance)`. -/
def relGE (a b : Source) : Prop := b.relevance ≤ a.relevance

instance : DecidableRel relGE := fun _ _ => inferInstanceAs (Decidable (_ ≤ _))

instance : IsTotal Source relGE := ⟨fun a b => le_total b.relevance a.relevance⟩

instance : IsTrans Source relGE := ⟨fun _ _ _ hab hbc => le_trans hbc hab⟩

/-- Embeds the ranking step of `generateRAGResponse`:
`searchResults.sort((a, b) => b.relevance - a.relevance).slice(0, 5)`.
JS sort is stable and sorts by the comparator; it is modelled by the
stable `List.insertionSort`. -/
def rankTopSources (searchResults : List Source) : List Source :=
  (List.insertionSort relGE searchResults).take 5

theorem getRecencyBonus_nonneg (cy : ℤ) (y : Option ℤ) : 0 ≤ getRecencyBonus cy y := by
  unfold getRecencyBonus
  cases y with
  | none => norm_num
  | some y =>
    dsimp only
    split <;> [norm_num;
      (split <;> [norm_num; (split <;> [norm_num; (split <;> norm_num)])])]

theorem getRecencyBonus_le (cy : ℤ) (y : Option ℤ) : getRecencyBonus cy y ≤ 1/5 := by
  unfold getRecencyBonus
  cases y with
  | none => norm_num
  | some y =>
    dsimp only
    split <;> [norm_num;
      (split <;> [norm_num; (split <;> [norm_num; (split <;> norm_num)])])]

theorem getAuthorityBonus_nonneg (t a : Option String) : 0 ≤ getAuthorityBonus t a := by
  unfold getAuthorityBonus
  split <;> [norm_num; (split <;> [norm_num; (split <;> norm_num)])]

theorem getAuthorityBonus_le (t a : Option String) : getAuthorityBonus t a ≤ 3/10 := by
  unfold getAuthorityBonus
  split <;> [norm_num; (split <;> [norm_num; (split <;> norm_num)])]

theorem clinicalOrDefault_nonneg (m : Metadata)
    (hc : ∀ c, m.clinical_relevance = some c → 0 ≤ c ∧ c ≤ 1) :
    0 ≤ clinicalOrDefault m := by
  unfold clinicalOrDefault
  cases h : m.clinical_relevance with
  | none => norm_num
  | some c =>
    dsimp only
    split
    · norm_num
    · exact (hc c h).1

theorem clinicalOrDefault_le (m : Metadata)
    (hc : ∀ c, m.clinical_relevance = some c → 0 ≤ c ∧ c ≤ 1) :
    clinicalOrDefault m ≤ 1 := by
  unfold clinicalOrDefault
  cases h : m.clinical_relevance with
  | none => norm_num
  | some c =>
    dsimp only
    split
    · norm_num
    · exact (hc c h).2

theorem authorityBonus_prof (a : Option String) :
    getAuthorityBonus (some "professor_expertise") a = 3/10 := by
  unfold getAuthorityBonus
  rw [if_pos (Or.inl rfl)]

theorem authorityBonus_trial (a : Option String) (ha : authorIncludesOh a = false) :
    getAuthorityBonus (some "clinical_trial") a = 1/5 := by
  have h1 : ¬(some "clinical_trial" = some "professor_expertise"
      ∨ authorIncludesOh a = true) := by
    rintro (heq | hoh)
    · simp at heq
    · rw [ha] at hoh
      simp at hoh
  have h2 : ¬(some "clinical_trial" = some "research_paper" ∧ authorTruthy a = true) := by
    rintro ⟨heq, -⟩
    simp at heq
  unfold getAuthorityBonus
  rw [if_neg h1, if_neg h2, if_pos rfl]

theorem authorityBonus_research (a : String) (ha : authorIncludesOh (some a) = false) :
    getAuthorityBonus (some "research_paper") (some a)
      = if a = "" then 0 else 3/20 := by
  have h1 : ¬(some "research_paper" = some "professor_expertise"
      ∨ authorIncludesOh (some a) = true) := by
    rintro (heq | hoh)
    · simp at heq
    · rw [ha] at hoh
      simp at hoh
  unfold getAuthorityBonus
  rw [if_neg h1]
  by_cases hae : a = ""
  · have h2 : ¬(some "research_paper" = some "research_paper"
        ∧ authorTruthy (some a) = true) := by
      rintro ⟨-, ht⟩
      unfold authorTruthy at ht
      simp [hae] at ht
    rw [if_neg h2, if_pos hae]
    have h3 : ¬(some "research_paper" = (some "clinical_trial" : Option String)) := by
      simp
    rw [if_neg h3]
  · have h2 : some "research_paper" = (some "research_paper" : Option String)
        ∧ authorTruthy (some a) = true := by
      refine ⟨rfl, ?_⟩
      unfold authorTruthy
      simp [hae]
    rw [if_pos h2, if_neg hae]

/-- Claim C1 counterexample: at `similarityScore = -1` with all
metadata fields missing, `calculateRelevance` returns `-1/4` and
`calculateMultilingualRelevance` returns `-1/20`, both strictly below
the claimed interval `[0,1]` (the code never clamps below 0). -/
theorem relevance_neg_similarity_cx :
    calculateRelevance 2025 (-1) emptyMeta = -(1/4) ∧
    calculateMultilingualRelevance 2025 (-1) emptyMeta "q" = -(1/20) ∧
    calculateRelevance 2025 (-1) emptyMeta < 0 ∧
    calculateMultilingualRelevance 2025 (-1) emptyMeta "q" < 0 := by
  have h1 : calculateRelevance 2025 (-1) emptyMeta = -(1/4) := by
    show (-1 : ℚ) * (2/5) + (1/2) * (3/10) + 0 * (1/5) + 0 * (1/10) = -(1/4)
    norm_num
  have h2 : calculateMultilingualRelevance 2025 (-1) emptyMeta "q" = -(1/20) := by
    show min 1 (((-1 : ℚ) * (2/5) + (1/2) * (3/10) + 0 * (1/5) + 0 * (1/10)) + 1/5 + 0)
      = -(1/20)
    rw [min_def]
    norm_num
  refine ⟨h1, h2, ?_, ?_⟩
  · rw [h1]; norm_num
  · rw [h2]; norm_num

/-- Claim C1 (amended): the relevance score of `calculateRelevance`
and `calculateMultilingualRelevance` lies within `[0,1]` whenever the
similarity score is itself within `[0,1]` and any present
`clinical_relevance` is within `[0,1]`; missing metadata fields
(clinical_relevance, year, type, author, language) are covered.  For
`similarityScore = -1` the score leaves the interval (see the
counterexample): the code never clamps below 0. -/
theorem relevance_unit_interval (cy : ℤ) (s : ℚ) (m : Metadata) (q : String)
    (hs0 : 0 ≤ s) (hs1 : s ≤ 1)
    (hc : ∀ c, m.clinical_relevance = some c → 0 ≤ c ∧ c ≤ 1) :
    (0 ≤ calculateRelevance cy s m ∧ calculateRelevance cy s m ≤ 1) ∧
    (0 ≤ calculateMultilingualRelevance cy s m q ∧
      calculateMultilingualRelevance cy s m q ≤ 1) := by
  have h1 := getRecencyBonus_nonneg cy m.year
  have h2 := getRecencyBonus_le cy m.year
  have h3 := getAuthorityBonus_nonneg m.type m.author
  have h4 := getAuthorityBonus_le m.type m.author
  have h5 := clinicalOrDefault_nonneg m hc
  have h6 := clinicalOrDefault_le m hc
  have hbase0 : 0 ≤ calculateRelevance cy s m := by
    simp only [calculateRelevance]
    linarith
  have hbase1 : calculateRelevance cy s m ≤ 1 := by
    simp only [calculateRelevance]
    linarith
  refine ⟨⟨hbase0, hbase1⟩, ?_, ?_⟩
  · simp only [calculateMultilingualRelevance]
    have hlb : (0:ℚ) ≤
        if detectLanguage q = languageOrEnglish m.language then (1/5 : ℚ) else 0 := by
      split <;> norm_num
    have hkb : (0:ℚ) ≤
        if detectLanguage q = "korean" ∧ languageOrEnglish m.language = "korean"
        then (1/10 : ℚ) else 0 := by
      split <;> norm_num
    exact le_min (by norm_num) (by linarith)
  · simp only [calculateMultilingualRelevance]
    exact min_le_left _ _

/-- Witness for the amended claim C1 at a concrete input. -/
theorem relevance_unit_interval_witness :
    (0 ≤ calculateRelevance 2025 (1/2) emptyMeta
      ∧ calculateRelevance 2025 (1/2) emptyMeta ≤ 1) ∧
    (0 ≤ calculateMultilingualRelevance 2025 (1/2) emptyMeta "q"
      ∧ calculateMultilingualRelevance 2025 (1/2) emptyMeta "q" ≤ 1) :=
  relevance_unit_interval 2025 (1/2) emptyMeta "q" (by norm_num) (by norm_num)
    (by intro c h; simp [emptyMeta] at h)

/-- Claim C5: `calculateRelevance` is the weighted sum
`0.4*similarity + 0.3*clinicalRelevance + 0.2*recencyBonus +
0.1*authorityBonus`; the clinical relevance defaults to the neutral
0.5 when absent; the recency bonus is at most 0.2 everywhere, equals
that full 0.2 for documents at most one year old, and is 0 beyond
three years; the authority bonus of primary-expertise and
clinical-trial records strictly exceeds that of generic (non-Oh)
research papers. -/
theorem relevance_formula_components (cy : ℤ) (s : ℚ) (m : Metadata) :
    (calculateRelevance cy s m =
      s * (2/5) + clinicalOrDefault m * (3/10) + getRecencyBonus cy m.year * (1/5)
        + getAuthorityBonus m.type m.author * (1/10)) ∧
    (m.clinical_relevance = none → clinicalOrDefault m = 1/2) ∧
    (∀ y : Option ℤ, getRecencyBonus cy y ≤ 1/5) ∧
    (∀ y : ℤ, y ≠ 0 → cy - y ≤ 1 → getRecencyBonus cy (some y) = 1/5) ∧
    (∀ y : ℤ, 3 < cy - y → getRecencyBonus cy (some y) = 0) ∧
    (∀ a : String, authorIncludesOh (some a) = false →
      getAuthorityBonus (some "research_paper") (some a)
          < getAuthorityBonus (some "professor_expertise") (some a) ∧
        getAuthorityBonus (some "research_paper") (some a)
          < getAuthorityBonus (some "clinical_trial") (some a)) := by
  refine ⟨rfl, ?_, getRecencyBonus_le cy, ?_, ?_, ?_⟩
  · intro h
    unfold clinicalOrDefault
    rw [h]
  · intro y hy h1
    unfold getRecencyBonus
    dsimp only
    rw [if_neg hy, if_pos h1]
  · intro y h
    unfold getRecencyBonus
    dsimp only
    by_cases hy : y = 0
    · rw [if_pos hy]
    · rw [if_neg hy, if_neg (by omega), if_neg (by omega), if_neg (by omega)]
  · intro a ha
    rw [authorityBonus_prof, authorityBonus_trial _ ha, authorityBonus_research a ha]
    constructor <;> (split <;> norm_num)

/-- Witness for claim C5 at concrete inputs. -/
theorem relevance_formula_components_witness :
    calculateRelevance 2025 1 emptyMeta =
      1 * (2/5) + clinicalOrDefault emptyMeta * (3/10)
        + getRecencyBonus 2025 emptyMeta.year * (1/5)
        + getAuthorityBonus emptyMeta.type emptyMeta.author * (1/10) ∧
    getRecencyBonus 2025 (some 2025) = 1/5 ∧
    getRecencyBonus 2025 (some 2000) = 0 ∧
    getAuthorityBonus (some "research_paper") (some "Johnson")
      < getAuthorityBonus (some "professor_expertise") (some "Johnson") := by
  have h := relevance_formula_components 2025 1 emptyMeta
  exact ⟨h.1, h.2.2.2.1 2025 (by decide) (by decide), h.2.2.2.2.1 2000 (by decide),
    (h.2.2.2.2.2 "Johnson" (by decide)).1⟩

/-- Claim C6: `calculateRelevance` is strictly monotonic in the
similarity score when the metadata (and reference year) are fixed. -/
theorem relevance_strictMono (cy : ℤ) (m : Metadata) (sa sb : ℚ) (h : sb < sa) :
    calculateRelevance cy sb m < calculateRelevance cy sa m := by
  simp only [calculateRelevance]
  linarith

/-- Witness for claim C6 at a concrete input. -/
theorem relevance_strictMono_witness :
    calculateRelevance 2025 0 emptyMeta < calculateRelevance 2025 1 emptyMeta :=
  relevance_strictMono 2025 emptyMeta 1 0 (by norm_num)

/-- Claim C2 counterexample: two sources of relevance 0 with no
authority tag.  The code returns confidence 3/5 (raw count 2 weighted
by 0.3), while the claimed normalised formula is at most 3/10
whatever the target count — so the claimed equality fails at this
input for every targetCount. -/
theorem confidence_formula_cx :
    calculateResponseConfidence [⟨0, emptyMeta⟩, ⟨0, emptyMeta⟩] = some (3/5) ∧
    ∀ t : ℚ, specConfidenceFormula [⟨0, emptyMeta⟩, ⟨0, emptyMeta⟩] t ≤ 3/10 := by
  constructor
  · simp only [calculateResponseConfidence, List.length_cons, List.length_nil,
      List.map_cons, List.map_nil, List.sum_cons, List.sum_nil, List.filter]
    norm_num [isAuthoritySource, emptyMeta, authorIncludesOh, min_def, max_def]
  · intro t
    simp only [specConfidenceFormula, List.length_cons, List.length_nil, List.map_cons,
      List.map_nil, List.sum_cons, List.sum_nil, List.filter]
    norm_num [isAuthoritySource, emptyMeta, authorIncludesOh]

/-- Claim C2 (amended): for every non-empty source list the
confidence score equals
`clamp(0.4*avgRelevance + 0.3*sourceCount + 0.3*authorityCount)`
into `[0,1]` with the raw (unnormalised) source and authority counts,
for both `calculateResponseConfidence` and
`calculateGeminiConfidence`. -/
theorem confidence_raw_counts (sources : List Source) (h : sources ≠ []) :
    calculateResponseConfidence sources
        = some (rawCountConfidenceFormula sources isAuthoritySource) ∧
      calculateGeminiConfidence sources
        = some (rawCountConfidenceFormula sources isGeminiAuthoritySource) := by
  have hlen : ¬ sources.length = 0 := by
    simpa [List.length_eq_zero] using h
  constructor
  · unfold calculateResponseConfidence rawCountConfidenceFormula
    rw [if_neg hlen]
  · unfold calculateGeminiConfidence rawCountConfidenceFormula
    rw [if_neg hlen]

/-- Witness for the amended claim C2 at a concrete one-source list. -/
theorem confidence_raw_counts_witness :
    calculateResponseConfidence [⟨0, emptyMeta⟩]
        = some (rawCountConfidenceFormula [⟨0, emptyMeta⟩] isAuthoritySource) ∧
      calculateGeminiConfidence [⟨0, emptyMeta⟩]
        = some (rawCountConfidenceFormula [⟨0, emptyMeta⟩] isGeminiAuthoritySource) :=
  confidence_raw_counts [⟨0, emptyMeta⟩] (by simp)

/-- Claim C7: on the empty source list (zero retrieved sources) the
confidence computation divides 0 by 0; the JS result is `NaN`
(modelled `none`), not a well-defined score in `[0,1]`, for both
confidence functions. -/
theorem confidence_empty_sources_nan :
    calculateResponseConfidence [] = none ∧ calculateGeminiConfidence [] = none := by
  constructor <;> rfl

theorem startsWithList_append (p l : List Char) : startsWithList (p ++ l) p = true := by
  induction p with
  | nil => simp [startsWithList]
  | cons a as ih => simp [startsWithList, ih]

theorem scanMarkers_cons (c : Char) (rest : List Char) :
    scanMarkers (c :: rest) = match markerAt (c :: rest) with
      | some ds => ds :: scanMarkers rest
      | none => scanMarkers rest := rfl

theorem markerAt_none_of_ne (c : Char) (rest : List Char) (h : c ≠ '[') :
    markerAt (c :: rest) = none := by
  have hs : startsWithList (c :: rest) ("[Source ".data) = false := by
    show (decide (c = '[') && startsWithList rest ("Source ".data)) = false
    simp [h]
  unfold markerAt
  rw [if_neg (by simp [hs])]

theorem scanMarkers_append_no_bracket (pre l : List Char) (h : ∀ c ∈ pre, c ≠ '[') :
    scanMarkers (pre ++ l) = scanMarkers l := by
  induction pre with
  | nil => rfl
  | cons c cs ih =>
    have hc : c ≠ '[' := h c (List.mem_cons_self c cs)
    show scanMarkers (c :: (cs ++ l)) = scanMarkers l
    rw [scanMarkers_cons, markerAt_none_of_ne c _ hc]
    show scanMarkers (cs ++ l) = scanMarkers l
    exact ih (fun x hx => h x (List.mem_cons_of_mem c hx))

theorem takeWhile_all_stop (p : Char → Bool) (ds : List Char) (x : Char) (post : List Char)
    (hds : ∀ c ∈ ds, p c = true) (hx : p x = false) :
    (ds ++ x :: post).takeWhile p = ds := by
  induction ds with
  | nil => simp [List.takeWhile, hx]
  | cons c cs ih =>
    have hc : p c = true := hds c (List.mem_cons_self c cs)
    simp [List.takeWhile, hc, ih (fun y hy => hds y (List.mem_cons_of_mem c hy))]

theorem dropWhile_all_stop (p : Char → Bool) (ds : List Char) (x : Char) (post : List Char)
    (hds : ∀ c ∈ ds, p c = true) (hx : p x = false) :
    (ds ++ x :: post).dropWhile p = x :: post := by
  induction ds with
  | nil => simp [List.dropWhile, hx]
  | cons c cs ih =>
    have hc : p c = true := hds c (List.mem_cons_self c cs)
    simp [List.dropWhile, hc, ih (fun y hy => hds y (List.mem_cons_of_mem c hy))]

theorem markerAt_marker (ds post : List Char) (hds : ds ≠ [])
    (hdig : ∀ c ∈ ds, c.isDigit = true) :
    markerAt ("[Source ".data ++ ds ++ ']' :: post) = some ds := by
  have h1 : startsWithList ("[Source ".data ++ (ds ++ ']' :: post)) ("[Source ".data)
      = true := startsWithList_append _ _
  have hdrop : ("[Source ".data ++ (ds ++ ']' :: post)).drop 8 = ds ++ ']' :: post := by
    have hlen : ("[Source ".data).length = 8 := rfl
    rw [← hlen]
    exact List.drop_left ("[Source ".data) (ds ++ ']' :: post)
  have ht : (ds ++ ']' :: post).takeWhile Char.isDigit = ds :=
    takeWhile_all_stop _ ds ']' post hdig (by decide)
  have hd : (ds ++ ']' :: post).dropWhile Char.isDigit = ']' :: post :=
    dropWhile_all_stop _ ds ']' post hdig (by decide)
  unfold markerAt
  rw [List.append_assoc, if_pos h1, hdrop, ht, hd]
  rw [if_pos ⟨hds, rfl⟩]

theorem scanMarkers_marker_head (ds post : List Char) (hds : ds ≠ [])
    (hdig : ∀ c ∈ ds, c.isDigit = true) :
    scanMarkers ("[Source ".data ++ ds ++ ']' :: post) = ds :: scanMarkers post := by
  have step : scanMarkers ("[Source ".data ++ ds ++ ']' :: post)
      = ds :: scanMarkers (("Source ".data ++ ds) ++ ']' :: post) := by
    rw [show (("[Source ".data ++ ds ++ ']' :: post) : List Char)
        = '[' :: (("Source ".data ++ ds) ++ ']' :: post) from rfl]
    rw [scanMarkers_cons]
    rw [show markerAt ('[' :: (("Source ".data ++ ds) ++ ']' :: post)) = some ds from
      markerAt_marker ds post hds hdig]
  have tailstep : scanMarkers (("Source ".data ++ ds) ++ ']' :: post)
      = scanMarkers post := by
    have hsplit : ((("Source ".data ++ ds) ++ ']' :: post) : List Char)
        = (("Source ".data ++ ds) ++ [']']) ++ post := by simp
    rw [hsplit]
    apply scanMarkers_append_no_bracket
    intro c hc
    have hmem : c ∈ "Source ".data ∨ c ∈ ds ∨ c = ']' := by
      simpa [List.mem_append, or_assoc] using hc
    have hsrc : ∀ x ∈ "Source ".data, x ≠ '[' := by decide
    rcases hmem with hm1 | hm2 | hm3
    · exact hsrc c hm1
    · intro heq
      exact absurd (heq ▸ hdig c hm2) (by decide)
    · rw [hm3]
      decide
  rw [step, tailstep]

/-- Claim C3 (amended): citation extraction yields every marker
embedded in the generated text regardless of whether its number lies
within `[1, sourceCount]` — here, a marker with an arbitrary digit
run placed after any bracket-free prefix is always returned, whatever
the source list is — and the formatter never fails (it is a total
function returning all extracted citations next to the source
count). -/
theorem extractCitations_marker (sources : List Source) (pre ds post : List Char)
    (hpre : ∀ c ∈ pre, c ≠ '[') (hds : ds ≠ [])
    (hdig : ∀ c ∈ ds, c.isDigit = true) :
    (formatRAGResponse (String.mk (pre ++ ("[Source ".data ++ ds ++ ']' :: post)))
        sources).citations
      = ⟨"[Source " ++ String.mk ds ++ "]", digitsVal ds⟩
          :: (scanMarkers post).map
            (fun d => ⟨"[Source " ++ String.mk d ++ "]", digitsVal d⟩) := by
  show (scanMarkers (pre ++ ("[Source ".data ++ ds ++ ']' :: post))).map
      (fun d => (⟨"[Source " ++ String.mk d ++ "]", digitsVal d⟩ : Citation)) = _
  rw [scanMarkers_append_no_bracket pre _ hpre,
    scanMarkers_marker_head ds post hds hdig, List.map_cons]

/-- Claim C3 counterexample: a generated text carrying the marker
with number 7 against a single-source list.  The formatter returns
that out-of-range citation (7 exceeds sourceCount = 1) instead of
excluding it as the claim states. -/
theorem citations_out_of_range_cx :
    (formatRAGResponse "[Source 7]" [⟨0, emptyMeta⟩]).citations = [⟨"[Source 7]", 7⟩] ∧
    (formatRAGResponse "[Source 7]" [⟨0, emptyMeta⟩]).sourceCount = 1 ∧
    ¬ ((7:ℕ) ≤ 1) := by
  refine ⟨?_, rfl, by norm_num⟩
  rfl

/-- Witness for the amended claim C3 at a concrete input. -/
theorem extractCitations_marker_witness :
    (formatRAGResponse (String.mk ("ab".data ++ ("[Source ".data ++ ['7'] ++ ']' :: [])))
        [⟨0, emptyMeta⟩]).citations
      = ⟨"[Source " ++ String.mk ['7'] ++ "]", digitsVal ['7']⟩
          :: (scanMarkers []).map
            (fun d => ⟨"[Source " ++ String.mk d ++ "]", digitsVal d⟩) :=
  extractCitations_marker [⟨0, emptyMeta⟩] "ab".data ['7'] [] (by decide) (by decide)
    (by decide)

/-- Claim C4 counterexample: the truthy non-string query 5 is not
rejected by any validation — the handler invokes the pipeline, whose
first step on the query text raises a `TypeError` (there is no
ValidationError anywhere in the code). -/
theorem query_validation_cx :
    handleLongevityQuery true (.num 5) = .pipelineInvoked (.num 5) ∧
    embeddingCacheKeyOf (.num 5) = .error .typeError := by
  constructor
  · norm_num [handleLongevityQuery, truthy]
  · rfl

/-- Claim C4 (amended): every falsy query value (empty string, 0,
false, null, undefined) is rejected by `handleLongevityQuery` with
the 400 Query-is-required response before the pipeline (hence before
any external call); truthy non-string queries are not validated —
they are passed to the pipeline and fail with a `TypeError` when the
embedding cache key is computed, still before any external call, but
not with a ValidationError. -/
theorem query_validation_amended (init : Bool) (q : JSValue) :
    (truthy q = false → handleLongevityQuery init q = .badRequestQueryRequired) ∧
    ((∀ s, q ≠ .str s) → truthy q = true →
      handleLongevityQuery true q = .pipelineInvoked q ∧
        embeddingCacheKeyOf q = .error .typeError) := by
  constructor
  · intro h
    unfold handleLongevityQuery
    rw [h, if_pos rfl]
  · intro hns ht
    constructor
    · unfold handleLongevityQuery
      rw [ht]
      norm_num
    · cases q with
      | str s => exact absurd rfl (hns s)
      | num q => rfl
      | boolean b => rfl
      | nullv => rfl
      | undef => rfl
      | obj => rfl

/-- Witness for the amended claim C4 at concrete query values. -/
theorem query_validation_amended_witness :
    handleLongevityQuery true (JSValue.str "") = .badRequestQueryRequired ∧
    (handleLongevityQuery true (JSValue.num 5) = .pipelineInvoked (JSValue.num 5) ∧
      embeddingCacheKeyOf (JSValue.num 5) = .error .typeError) :=
  ⟨(query_validation_amended true (JSValue.str "")).1 (by norm_num [truthy]),
    (query_validation_amended true (JSValue.num 5)).2
      (fun s h => JSValue.noConfusion h) (by norm_num [truthy])⟩

/-- Claim C8: two distinct texts sharing their first 100 characters
share the truncated cache key, so embedding the first and then the
second returns the cached vector of the first for the second text,
whatever the provider and the prior cache contents. -/
theorem embedding_cache_prefix_collision {V : Type} (provider : String → V)
    (cache : List (String × V)) (t1 t2 : String)
    (_hne : t1 ≠ t2) (hpre : t1.take 100 = t2.take 100) :
    (createEmbedding provider (createEmbedding provider cache t1).2 t2).1
      = (createEmbedding provider cache t1).1 := by
  have hkey : cacheKey t2 = cacheKey t1 := by
    unfold cacheKey
    rw [hpre]
  cases h : cache.lookup (cacheKey t1) with
  | some v =>
    have h1 : createEmbedding provider cache t1 = (v, cache) := by
      unfold createEmbedding
      rw [h]
    rw [h1]
    show (createEmbedding provider cache t2).1 = v
    unfold createEmbedding
    rw [hkey, h]
  | none =>
    have h1 : createEmbedding provider cache t1
        = (provider t1, (cacheKey t1, provider t1) :: cache) := by
      unfold createEmbedding
      rw [h]
    rw [h1]
    show (createEmbedding provider ((cacheKey t1, provider t1) :: cache) t2).1
      = provider t1
    unfold createEmbedding
    rw [hkey]
    simp [List.lookup]

set_option maxRecDepth 4000 in
/-- Witness for claim C8: two 101-character texts differing only in
their last character collide on the 100-character key. -/
theorem embedding_cache_prefix_collision_witness :
    (createEmbedding (fun _ => (0:ℕ))
        (createEmbedding (fun _ => (0:ℕ)) []
          (String.mk (List.replicate 100 'a' ++ ['b']))).2
        (String.mk (List.replicate 100 'a' ++ ['c']))).1
      = (createEmbedding (fun _ => (0:ℕ)) []
          (String.mk (List.replicate 100 'a' ++ ['b']))).1 :=
  embedding_cache_prefix_collision (fun _ => (0:ℕ)) [] _ _ (by decide) (by decide)

theorem chunkWords_flatten (ws : List String) (n : ℕ) :
    (chunkWords ws n).flatten = ws := by
  induction ws, n using chunkWords.induct with
  | case1 n => simp [chunkWords]
  | case2 w ws n ih =>
    rw [chunkWords]
    simp only [List.flatten_cons, ih, List.cons_append]
    rw [List.take_append_drop]

theorem chunkWords_dropLast_length (ws : List String) (n : ℕ) :
    0 < n → ∀ g ∈ (chunkWords ws n).dropLast, g.length = n := by
  induction ws, n using chunkWords.induct with
  | case1 n =>
    intro _ g hg
    simp [chunkWords] at hg
  | case2 w ws n ih =>
    intro hn g hg
    rw [chunkWords] at hg
    cases hrest : chunkWords (ws.drop (n - 1)) n with
    | nil =>
      rw [hrest] at hg
      simp at hg
    | cons r rs =>
      rw [hrest] at hg
      rw [List.dropLast_cons₂] at hg
      rcases List.mem_cons.1 hg with hg0 | hgrest
      · have hdrop : ws.drop (n - 1) ≠ [] := by
          intro hd
          rw [hd] at hrest
          simp [chunkWords] at hrest
        have hlen : n - 1 < ws.length := by
          have := List.length_drop (n - 1) ws
          rcases Nat.lt_or_ge (n - 1) ws.length with hlt | hge
          · exact hlt
          · exact absurd (List.drop_eq_nil_of_le hge) hdrop
        rw [hg0]
        simp only [List.length_cons, List.length_take]
        omega
      · exact ih hn g (hrest ▸ hgrest)

/-- Claim C9: for every document text and positive window size,
`chunkDocument` groups the space-separated words into consecutive
windows — joined back with single spaces — such that the
concatenation of all windows is exactly the original word sequence
(every word in exactly one chunk, original order preserved) and every
window except possibly the last holds exactly the window-size number
of words. -/
theorem chunk_partition (text : String) (n : ℕ) (h : 0 < n) :
    chunkDocument text n
        = (chunkWords (text.splitOn " ") n).map (fun ws => " ".intercalate ws) ∧
      (chunkWords (text.splitOn " ") n).flatten = text.splitOn " " ∧
      ∀ g ∈ (chunkWords (text.splitOn " ") n).dropLast, g.length = n :=
  ⟨rfl, chunkWords_flatten _ n, chunkWords_dropLast_length _ n h⟩

/-- Witness for claim C9 at a concrete document and window size. -/
theorem chunk_partition_witness :
    chunkDocument "a b c" 2
        = (chunkWords ("a b c".splitOn " ") 2).map (fun ws => " ".intercalate ws) ∧
      (chunkWords ("a b c".splitOn " ") 2).flatten = "a b c".splitOn " " ∧
      ∀ g ∈ (chunkWords ("a b c".splitOn " ") 2).dropLast, g.length = 2 :=
  chunk_partition "a b c" 2 (by norm_num)

/-- Claim C10: the sources attached to an answer by
`generateRAGResponse` are at most the top-K = 5 of the ranked
results, each source comes from the retrieval result list, and they
are listed in descending relevance-score order. -/
theorem sources_topK_of_ranked (results : List Source) :
    (rankTopSources results).length ≤ 5 ∧
    (∀ s ∈ rankTopSources results, s ∈ results) ∧
    List.Sorted relGE (rankTopSources results) := by
  refine ⟨?_, ?_, ?_⟩
  · unfold rankTopSources
    exact List.length_take_le 5 _
  · intro s hs
    have h1 : s ∈ List.insertionSort relGE results := List.mem_of_mem_take hs
    exact (List.perm_insertionSort relGE results).mem_iff.1 h1
  · exact List.Pairwise.sublist (List.take_sublist _ _)
      (List.sorted_insertionSort relGE results)

end RAG
